import Mathlib

/-!
# Googlephoto: the paginated photo accumulator

A shallow embedding of `google_photo.go`.

* Go's `(value, error)` results are pairs `value × Option Error`: a call may hand
  back a value together with a non-nil error, and the source does so.
* Go's `int` is `Int`. The counters of `ListPhotos` grow by 1000 per non-empty
  page, so a 64-bit counter cannot wrap before the accumulated slice has
  outgrown the address space.
* The HTTP client and the XML decoder are external collaborators and are the
  fields of `World`.
* `log.Println(url)` is kept: every run carries the list of endpoints it logged,
  one per page request.
* The `for` loop of `ListPhotos` takes a bound on the number of iterations;
  a run that exceeds it has `outcome = none` and still carries its log.
-/

set_option maxRecDepth 100000

namespace Googlephoto

/-- Go's `error`, reduced to its message. -/
structure Error where
  msg : String
deriving DecidableEq, Repr

/-- The type `Album` of the source. -/
structure Album where
  ID : String
  Name : String
  NumPhotos : Int
deriving DecidableEq, Repr

/-- The anonymous struct field `Content` of `Photo`. -/
structure Content where
  URL : String
deriving DecidableEq, Repr

/-- The type `Photo` of the source; `time.Time` is an instant counted in seconds. -/
structure Photo where
  ID : String
  ExifID : String
  URL : String
  Content : Content
  Name : String
  Timestamp : Int
  Size : Int
  Published : Int
  Updated : Int
deriving DecidableEq, Repr

/-- The part of `http.Request` that `getFeed` touches. -/
structure Request where
  Method : String
  URL : String
  Header : List (String × String)
deriving DecidableEq, Repr

/-- The part of `http.Response` that `getFeed` touches: the bytes the body
stream delivers and the read failure, if any, that ends it. -/
structure Response where
  Body : List Nat
  BodyErr : Option Error
deriving DecidableEq, Repr

/-- The external collaborators: URL validation of `http.NewRequest`, the
round trip `c.c.Do`, and `xml.Unmarshal` at the two feed types. A decoder gives
the entries it filled in and the error it stopped at, if any. -/
structure World where
  badURL : String → Option Error
  Do : Request → Except Error Response
  UnmarshalAlbums : List Nat → List Album × Option Error
  UnmarshalPhotos : List Nat → List Photo × Option Error

/-- `Album.FeedURL`. -/
def Album.FeedURL (a : Album) : String :=
  "https://picasaweb.google.com/data/feed/api/user/default/albumid/" ++ a.ID

/-- The verb `%d` of `fmt` at an `int`: decimal digits, a leading `-` when negative. -/
def decimal (i : Int) : String :=
  toString i

/-- The scan of `fmt.Sprintf` over a format, for the verb `%d` with operands
at hand; every other character is copied. -/
def sprintfAux : List Char → List Int → List Char
  | '%' :: 'd' :: rest, a :: args => (decimal a).data ++ sprintfAux rest args
  | c :: rest, args => c :: sprintfAux rest args
  | [], _ => []

/-- `fmt.Sprintf` at integer operands. -/
def Sprintf (format : String) (args : List Int) : String :=
  String.mk (sprintfAux format.data args)

/-- `http.NewRequest(method, url, nil)`. -/
def NewRequest (w : World) (method url : String) : Except Error Request :=
  match w.badURL url with
  | some e => .error e
  | none => .ok ⟨method, url, []⟩

/-- The letter case of a canonical header key: upper case at the start and
after a hyphen, lower case elsewhere. -/
def canonicalAux : Bool → List Char → List Char
  | _, [] => []
  | upper, c :: cs =>
    (if upper then c.toUpper else c.toLower) :: canonicalAux (c = '-') cs

/-- `textproto.CanonicalMIMEHeaderKey` at a key of letters and hyphens. -/
def canonicalKey (key : String) : String :=
  String.mk (canonicalAux true key.data)

/-- `req.Header.Set(key, value)`: the key is stored in canonical form and
replaces what was stored under it. -/
def Request.setHeader (req : Request) (key value : String) : Request :=
  ⟨req.Method, req.URL,
    (canonicalKey key, value) :: req.Header.filter (fun kv => kv.1 ≠ canonicalKey key)⟩

/-- `ioutil.ReadAll(res.Body)`. -/
def ReadAll (res : Response) : List Nat × Option Error :=
  (res.Body, res.BodyErr)

/-- `Client.getFeed`. -/
def getFeed (w : World) (endpoint : String) : List Nat × Option Error :=
  match NewRequest w "GET" endpoint with
  | .error e => ([], some e)
  | .ok req =>
    match w.Do (req.setHeader "GData-Version" "2") with
    | .error e => ([], some e)
    | .ok res => ReadAll res

/-- `Client.ListAlbums`. -/
def ListAlbums (w : World) : List Album × Option Error :=
  match getFeed w "https://picasaweb.google.com/data/feed/api/user/default" with
  | (_, some e) => ([], some e)
  | (data, none) => w.UnmarshalAlbums data

/-- The endpoint `listPhotos` builds and logs. -/
def listPhotosURL (album : Album) (start end_ : Int) : String :=
  album.FeedURL ++ Sprintf "?start-index=%d&max-results=%d" [start, end_]

/-- `Client.listPhotos`: the page and error it returns. The endpoint it logs
and requests is `listPhotosURL album start end_`. -/
def listPhotos (w : World) (album : Album) (start end_ : Int) : List Photo × Option Error :=
  match getFeed w (listPhotosURL album start end_) with
  | (_, some e) => ([], some e)
  | (data, none) => w.UnmarshalPhotos data

/-- A run of `ListPhotos`: what it returned, if the loop ended within the
bound, and the endpoints logged so far, oldest first. -/
structure Run where
  outcome : Option (List Photo × Option Error)
  log : List String
deriving DecidableEq, Repr

/-- The `for previousLen != len(photos)` loop of `ListPhotos`, at most `fuel`
iterations of it. -/
def ListPhotosLoop (w : World) (album : Album) :
    Nat → List Photo → Int → Int → Int → List String → Run
  | 0, photos, _, _, previousLen, log =>
    if previousLen ≠ (photos.length : Int) then ⟨none, log⟩
    else ⟨some (photos, none), log⟩
  | fuel + 1, photos, start, end_, previousLen, log =>
    if previousLen ≠ (photos.length : Int) then
      let previousLen := (photos.length : Int)
      let log := log ++ [listPhotosURL album start end_]
      match listPhotos w album start end_ with
      | (_, some err) => ⟨some ([], some err), log⟩
      | (page, none) =>
        ListPhotosLoop w album fuel (photos ++ page) end_ (end_ + 1000) previousLen log
    else ⟨some (photos, none), log⟩

/-- `Client.ListPhotos`, with a bound on the iterations of its loop. -/
def ListPhotos (w : World) (album : Album) (fuel : Nat) : Run :=
  ListPhotosLoop w album fuel [] 1 1000 (-1) []

/-- The parameters of the page requests as the specification lists them:
`(1, 1000)` first, then the previous limit as offset and the previous limit
plus 1000 as limit. -/
def pageArgs : Nat → Int × Int
  | 0 => (1, 1000)
  | i + 1 => ((pageArgs i).2, (pageArgs i).2 + 1000)

/-- The result of the `i`-th page request of a run (counted from 0). -/
def page (w : World) (album : Album) (i : Nat) : List Photo × Option Error :=
  listPhotos w album (pageArgs i).1 (pageArgs i).2

/-- The endpoint of the `i`-th page request of a run (counted from 0). -/
def pageURL (album : Album) (i : Nat) : String :=
  listPhotosURL album (pageArgs i).1 (pageArgs i).2

/-- The parameters of the `i`-th request after a loop state `(start, end_)`. -/
def argsFrom (s e : Int) : Nat → Int × Int
  | 0 => (s, e)
  | i + 1 => argsFrom e (e + 1000) i

/-- The records of the next `k` pages after a loop state, in request order. -/
def pagesFrom (w : World) (album : Album) (s e : Int) : Nat → List Photo
  | 0 => []
  | k + 1 => (listPhotos w album s e).1 ++ pagesFrom w album e (e + 1000) k

/-- The endpoints of the next `k` requests after a loop state. -/
def urlsFrom (album : Album) (s e : Int) : Nat → List String
  | 0 => []
  | k + 1 => listPhotosURL album s e :: urlsFrom album e (e + 1000) k

/-! ## Concrete collaborators

A simulated feed: responses are looked up by endpoint in a table, and a body is
a list of entry numbers in which `0` stands for malformed XML. -/

/-- The photo decoded from entry number `n`. -/
def photoOf (n : Nat) : Photo :=
  ⟨toString n, "", "", ⟨""⟩, "", 0, 0, 0, 0⟩

/-- The album decoded from entry number `n`. -/
def albumOf (n : Nat) : Album :=
  ⟨toString n, "", 0⟩

/-- A photo-feed decoder that fills in entries until the body ends or it meets
malformed XML; like `xml.Unmarshal` it keeps the entries read before the failure. -/
def decodePhotos : List Nat → List Photo × Option Error
  | [] => ([], none)
  | 0 :: _ => ([], some ⟨"XML syntax error"⟩)
  | (n + 1) :: rest => (photoOf (n + 1) :: (decodePhotos rest).1, (decodePhotos rest).2)

/-- The album-feed decoder of the same kind. -/
def decodeAlbums : List Nat → List Album × Option Error
  | [] => ([], none)
  | 0 :: _ => ([], some ⟨"XML syntax error"⟩)
  | (n + 1) :: rest => (albumOf (n + 1) :: (decodeAlbums rest).1, (decodeAlbums rest).2)

/-- A feed that answers by endpoint from a table and with an empty feed elsewhere. -/
def tableWorld (table : List (String × Except Error Response)) : World where
  badURL := fun _ => none
  Do := fun req =>
    match table.lookup req.URL with
    | some r => r
    | none => .ok ⟨[], none⟩
  UnmarshalAlbums := decodeAlbums
  UnmarshalPhotos := decodePhotos

/-- An album with a declared count of 7. -/
def albumA : Album := ⟨"A", "Holidays", 7⟩

/-- The same album ID under another name and another declared count. -/
def albumA2 : Album := ⟨"A", "Renamed", 0⟩

/-- A feed with one record on the first page of album `A` and none after it. -/
def oneRecordWorld : World :=
  tableWorld
    [("https://picasaweb.google.com/data/feed/api/user/default/albumid/A?start-index=1&max-results=1000",
      .ok ⟨[1], none⟩)]

/-- A feed with no record at all. -/
def emptyWorld : World :=
  tableWorld []

/-- A feed whose first page of album `A` has 500 records and whose second page
breaks off after two entries. -/
def brokenSecondPageWorld : World :=
  tableWorld
    [("https://picasaweb.google.com/data/feed/api/user/default/albumid/A?start-index=1&max-results=1000",
      .ok ⟨List.replicate 500 1, none⟩),
     ("https://picasaweb.google.com/data/feed/api/user/default/albumid/A?start-index=1000&max-results=2000",
      .ok ⟨[2, 3, 0], none⟩)]

/-- A root feed that breaks off after one album entry. -/
def brokenRootWorld : World :=
  tableWorld
    [("https://picasaweb.google.com/data/feed/api/user/default", .ok ⟨[1, 0], none⟩)]

/-! ## The positional service -/

/-- The service model of the specification: the service holds the photos `ps`
and answers the request `(s, m)` with those at the 1-based positions `s`
through `min N (s + m - 1)`. -/
def servicePage (ps : List Photo) (s m : Int) : List Photo :=
  (ps.drop (s - 1).toNat).take m.toNat

/-- The feed answers every page request of `album` as the positional service
holding `ps` does. -/
def Serves (w : World) (album : Album) (ps : List Photo) : Prop :=
  ∀ s m : Int, 1 ≤ s → 0 ≤ m → listPhotos w album s m = (servicePage ps s m, none)

/-- The number written by a list of decimal digits. -/
def readNat (cs : List Char) : Nat :=
  cs.foldl (fun acc c => 10 * acc + (c.toNat - 48)) 0

/-- The decimal number a reversed text starts with, and the text after it. -/
def splitNumber (r : List Char) : Nat × List Char :=
  (readNat (r.takeWhile Char.isDigit).reverse, r.dropWhile Char.isDigit)

/-- The server's reading of the query `?start-index=<s>&max-results=<m>` that an
endpoint ends with. -/
def parseQuery (url : String) : Option (Nat × Nat) :=
  let r1 := splitNumber url.data.reverse
  if r1.2.take 13 = "&max-results=".data.reverse then
    let r2 := splitNumber (r1.2.drop 13)
    if r2.2.take 13 = "?start-index=".data.reverse then some (r2.1, r1.1) else none
  else none

/-- The photos a simulated positional service with `N` photos holds. -/
def servicePhotos (N : Nat) : List Photo :=
  (List.range' 1 N).map photoOf

/-- A simulated positional service with `N` photos: it reads the query of the
endpoint and answers with the entries at the positions asked for. -/
def positionalWorld (N : Nat) : World where
  badURL := fun _ => none
  Do := fun req =>
    match parseQuery req.URL with
    | some (s, m) => .ok ⟨((List.range' 1 N).drop (s - 1)).take m, none⟩
    | none => .error ⟨"400 Bad Request"⟩
  UnmarshalAlbums := decodeAlbums
  UnmarshalPhotos := decodePhotos

/-- An album that declares 1200 photos. -/
def albumB : Album := ⟨"B", "Archive", 1200⟩

/-- The number of non-empty pages of a run against a positional service with
`N` photos. -/
def servedPages (N : Nat) : Nat :=
  if N = 0 then 0 else N / 1000 + 1

/-! ## The loop, one iteration at a time -/

theorem loop_done (w : World) (album : Album) (fuel : Nat) (photos : List Photo)
    (s e prev : Int) (log : List String) (h : prev = (photos.length : Int)) :
    ListPhotosLoop w album fuel photos s e prev log = ⟨some (photos, none), log⟩ := by
  cases fuel <;> simp [ListPhotosLoop, h]

theorem loop_step_ok (w : World) (album : Album) (fuel : Nat) (photos pg : List Photo)
    (s e prev : Int) (log : List String) (h : prev ≠ (photos.length : Int))
    (hp : listPhotos w album s e = (pg, none)) :
    ListPhotosLoop w album (fuel + 1) photos s e prev log =
      ListPhotosLoop w album fuel (photos ++ pg) e (e + 1000) (photos.length : Int)
        (log ++ [listPhotosURL album s e]) := by
  simp [ListPhotosLoop, h, hp]

theorem loop_step_err (w : World) (album : Album) (fuel : Nat) (photos : List Photo)
    (s e prev : Int) (log : List String) (err : Error) (h : prev ≠ (photos.length : Int))
    (hp : (listPhotos w album s e).2 = some err) :
    ListPhotosLoop w album (fuel + 1) photos s e prev log =
      ⟨some ([], some err), log ++ [listPhotosURL album s e]⟩ := by
  rcases hlp : listPhotos w album s e with ⟨pg, oe⟩
  rw [hlp] at hp
  simp only at hp
  subst hp
  simp [ListPhotosLoop, h, hlp]

theorem length_append_ne (photos pg : List Photo) (h : pg ≠ []) :
    (photos.length : Int) ≠ ((photos ++ pg).length : Int) := by
  have : 0 < pg.length := List.length_pos.mpr h
  simp only [List.length_append, Nat.cast_add]
  omega

/-- While the pages are served and non-empty the loop keeps going: `k` such
pages take `k` iterations and leave the loop at its guard, which holds. -/
theorem loop_run (w : World) (album : Album) :
    ∀ (k fuel : Nat) (photos : List Photo) (s e prev : Int) (log : List String),
      prev ≠ (photos.length : Int) →
      (∀ i, i < k → (listPhotos w album (argsFrom s e i).1 (argsFrom s e i).2).2 = none ∧
        (listPhotos w album (argsFrom s e i).1 (argsFrom s e i).2).1 ≠ []) →
      ∃ prev1 : Int, prev1 ≠ ((photos ++ pagesFrom w album s e k).length : Int) ∧
        ListPhotosLoop w album (fuel + k) photos s e prev log =
          ListPhotosLoop w album fuel (photos ++ pagesFrom w album s e k)
            (argsFrom s e k).1 (argsFrom s e k).2 prev1 (log ++ urlsFrom album s e k) := by
  intro k
  induction k with
  | zero =>
    intro fuel photos s e prev log h _
    exact ⟨prev, by simpa [pagesFrom] using h, by simp [pagesFrom, urlsFrom, argsFrom]⟩
  | succ k ih =>
    intro fuel photos s e prev log h hpages
    have h0 := hpages 0 (Nat.succ_pos k)
    simp only [argsFrom] at h0
    rcases hlp : listPhotos w album s e with ⟨pg, oe⟩
    rw [hlp] at h0
    simp only at h0
    obtain ⟨hoe, hpg⟩ := h0
    subst hoe
    have hnext : ∀ i, i < k →
        (listPhotos w album (argsFrom e (e + 1000) i).1 (argsFrom e (e + 1000) i).2).2 = none ∧
        (listPhotos w album (argsFrom e (e + 1000) i).1 (argsFrom e (e + 1000) i).2).1 ≠ [] := by
      intro i hi
      simpa [argsFrom] using hpages (i + 1) (Nat.succ_lt_succ hi)
    obtain ⟨prev1, hprev1, hrun⟩ :=
      ih fuel (photos ++ pg) e (e + 1000) (photos.length : Int)
        (log ++ [listPhotosURL album s e]) (length_append_ne photos pg hpg) hnext
    refine ⟨prev1, ?_, ?_⟩
    · simpa [pagesFrom, hlp, List.append_assoc] using hprev1
    · rw [← Nat.add_assoc, loop_step_ok w album (fuel + k) photos pg s e prev log h hlp, hrun]
      simp [pagesFrom, urlsFrom, argsFrom, hlp, List.append_assoc]

/-! ## The request parameters -/

theorem argsFrom_succ (s e : Int) (i : Nat) :
    argsFrom s e (i + 1) = ((argsFrom s e i).2, (argsFrom s e i).2 + 1000) := by
  induction i generalizing s e with
  | zero => rfl
  | succ i ih =>
    show argsFrom e (e + 1000) (i + 1) = _
    rw [ih]
    rfl

theorem pageArgs_eq_argsFrom (i : Nat) : pageArgs i = argsFrom 1 1000 i := by
  induction i with
  | zero => rfl
  | succ i ih => rw [argsFrom_succ, ← ih]; rfl

theorem pageArgs_snd (i : Nat) : (pageArgs i).2 = 1000 * ((i : Int) + 1) := by
  induction i with
  | zero => rfl
  | succ i ih =>
    show (pageArgs i).2 + 1000 = _
    rw [ih]
    push_cast
    ring

theorem pageArgs_succ (i : Nat) :
    pageArgs (i + 1) = (1000 * ((i : Int) + 1), 1000 * ((i : Int) + 2)) := by
  show ((pageArgs i).2, (pageArgs i).2 + 1000) = _
  rw [pageArgs_snd]
  congr 1

/-- The counters of the first `9 * 10 ^ 15` iterations stay within a 64-bit `int`:
what iteration `i` passes and what it computes for the next one. -/
theorem pageArgs_fits_int64 (i : Nat) (hi : i + 2 ≤ 9223372036854775) :
    1 ≤ (pageArgs i).1 ∧ (pageArgs i).1 ≤ (pageArgs i).2 ∧
      (pageArgs i).2 + 1000 ≤ 2 ^ 63 - 1 := by
  cases i with
  | zero => decide
  | succ i =>
    rw [pageArgs_succ]
    simp only
    omega

theorem pagesFrom_eq (w : World) (album : Album) (s e : Int) (k : Nat) :
    pagesFrom w album s e k =
      ((List.range k).map
        (fun i => (listPhotos w album (argsFrom s e i).1 (argsFrom s e i).2).1)).flatten := by
  induction k generalizing s e with
  | zero => rfl
  | succ k ih =>
    rw [List.range_succ_eq_map]
    simp [pagesFrom, ih, argsFrom, List.map_map, Function.comp_def]

theorem urlsFrom_eq (album : Album) (s e : Int) (k : Nat) :
    urlsFrom album s e k =
      (List.range k).map
        (fun i => listPhotosURL album (argsFrom s e i).1 (argsFrom s e i).2) := by
  induction k generalizing s e with
  | zero => rfl
  | succ k ih =>
    rw [List.range_succ_eq_map]
    simp [urlsFrom, ih, argsFrom, List.map_map, Function.comp_def]

theorem pagesFrom_start (w : World) (album : Album) (k : Nat) :
    pagesFrom w album 1 1000 k =
      ((List.range k).map (fun i => (page w album i).1)).flatten := by
  rw [pagesFrom_eq]
  simp only [page, pageArgs_eq_argsFrom]

theorem urlsFrom_start (album : Album) (k : Nat) :
    urlsFrom album 1 1000 k = (List.range k).map (pageURL album) := by
  rw [urlsFrom_eq]
  congr 1
  funext i
  simp only [pageURL, pageArgs_eq_argsFrom]

/-- The run up to the `k`-th request, when the pages before it are served and
non-empty. -/
theorem run_reaches (w : World) (album : Album) (k fuel : Nat)
    (hne : ∀ i, i < k → (page w album i).2 = none ∧ (page w album i).1 ≠ []) :
    ∃ prev1 : Int,
      prev1 ≠ ((((List.range k).map (fun i => (page w album i).1)).flatten).length : Int) ∧
      ListPhotos w album (fuel + k) =
        ListPhotosLoop w album fuel
          ((List.range k).map (fun i => (page w album i).1)).flatten
          (pageArgs k).1 (pageArgs k).2 prev1 ((List.range k).map (pageURL album)) := by
  have hne1 : ∀ i, i < k →
      (listPhotos w album (argsFrom 1 1000 i).1 (argsFrom 1 1000 i).2).2 = none ∧
      (listPhotos w album (argsFrom 1 1000 i).1 (argsFrom 1 1000 i).2).1 ≠ [] := by
    intro i hi
    simpa [page, pageArgs_eq_argsFrom] using hne i hi
  obtain ⟨prev1, h1, h2⟩ :=
    loop_run w album k fuel [] 1 1000 (-1) [] (by simp) hne1
  refine ⟨prev1, ?_, ?_⟩
  · simpa [pagesFrom_start] using h1
  · simpa [ListPhotos, pagesFrom_start, urlsFrom_start, pageArgs_eq_argsFrom] using h2

/-- The run that meets `k` served non-empty pages and then a served empty one. -/
theorem run_until_empty (w : World) (album : Album) (k fuel : Nat)
    (hne : ∀ i, i < k → (page w album i).2 = none ∧ (page w album i).1 ≠ [])
    (hk : page w album k = ([], none))
    (hfuel : k + 1 ≤ fuel) :
    ListPhotos w album fuel =
      ⟨some (((List.range (k + 1)).map (fun i => (page w album i).1)).flatten, none),
        (List.range (k + 1)).map (pageURL album)⟩ := by
  obtain ⟨f, rfl⟩ : ∃ f, fuel = (f + 1) + k := ⟨fuel - (k + 1), by omega⟩
  obtain ⟨prev1, h1, h2⟩ := run_reaches w album k (f + 1) hne
  rw [h2, loop_step_ok w album f _ [] _ _ _ _ h1 hk, loop_done _ _ _ _ _ _ _ _ (by simp)]
  simp [List.range_succ, hk, pageURL]

/-! ## The log of a run -/

/-- The log grows by the endpoints of consecutive requests, at most one per
iteration. -/
theorem loop_log (w : World) (album : Album) :
    ∀ (fuel : Nat) (photos : List Photo) (s e prev : Int) (log : List String),
      ∃ n, n ≤ fuel ∧
        (ListPhotosLoop w album fuel photos s e prev log).log = log ++ urlsFrom album s e n := by
  intro fuel
  induction fuel with
  | zero =>
    intro photos s e prev log
    refine ⟨0, le_refl _, ?_⟩
    by_cases h : prev = (photos.length : Int) <;> simp [ListPhotosLoop, h, urlsFrom]
  | succ fuel ih =>
    intro photos s e prev log
    by_cases h : prev = (photos.length : Int)
    · exact ⟨0, Nat.zero_le _, by rw [loop_done _ _ _ _ _ _ _ _ h]; simp [urlsFrom]⟩
    · rcases hlp : listPhotos w album s e with ⟨pg, oe⟩
      cases oe with
      | some err =>
        refine ⟨1, by omega, ?_⟩
        rw [loop_step_err w album fuel photos s e prev log err h (by rw [hlp])]
        simp [urlsFrom]
      | none =>
        obtain ⟨n, hn, hlog⟩ := ih (photos ++ pg) e (e + 1000) (photos.length : Int)
          (log ++ [listPhotosURL album s e])
        refine ⟨n + 1, by omega, ?_⟩
        rw [loop_step_ok w album fuel photos pg s e prev log h hlp, hlog]
        simp [urlsFrom]

/-! ## The album and the endpoint -/

/-- The endpoint is built from the ID of the album alone. -/
theorem listPhotosURL_of_ID_eq (a b : Album) (h : a.ID = b.ID) (s e : Int) :
    listPhotosURL a s e = listPhotosURL b s e := by
  simp [listPhotosURL, Album.FeedURL, h]

theorem listPhotos_of_ID_eq (w : World) (a b : Album) (h : a.ID = b.ID) (s e : Int) :
    listPhotos w a s e = listPhotos w b s e := by
  simp [listPhotos, listPhotosURL_of_ID_eq a b h]

theorem loop_of_ID_eq (w : World) (a b : Album) (h : a.ID = b.ID) :
    ∀ (fuel : Nat) (photos : List Photo) (s e prev : Int) (log : List String),
      ListPhotosLoop w a fuel photos s e prev log =
        ListPhotosLoop w b fuel photos s e prev log := by
  intro fuel
  induction fuel with
  | zero => intro photos s e prev log; rfl
  | succ fuel ih =>
    intro photos s e prev log
    simp only [ListPhotosLoop, listPhotos_of_ID_eq w a b h, listPhotosURL_of_ID_eq a b h, ih]

/-- The format of `listPhotos` at two operands. -/
theorem sprintf_query (s m : Int) :
    Sprintf "?start-index=%d&max-results=%d" [s, m] =
      "?start-index=" ++ decimal s ++ "&max-results=" ++ decimal m := by
  apply String.ext
  simp [Sprintf, sprintfAux]

theorem listPhotosURL_eq (a : Album) (s m : Int) :
    listPhotosURL a s m =
      a.FeedURL ++ "?start-index=" ++ decimal s ++ "&max-results=" ++ decimal m := by
  simp [listPhotosURL, sprintf_query, String.append_assoc]

/-! ## When the loop stops -/

theorem loop_log_length_le (w : World) (album : Album) (fuel : Nat) (photos : List Photo)
    (s e prev : Int) (log : List String) :
    log.length ≤ (ListPhotosLoop w album fuel photos s e prev log).log.length := by
  obtain ⟨n, _, hlog⟩ := loop_log w album fuel photos s e prev log
  rw [hlog]
  simp

theorem loop_log_length_pos (w : World) (album : Album) (fuel : Nat) (photos : List Photo)
    (s e prev : Int) (log : List String) (h : prev ≠ (photos.length : Int)) :
    log.length + 1 ≤ (ListPhotosLoop w album (fuel + 1) photos s e prev log).log.length := by
  rcases hlp : listPhotos w album s e with ⟨pg, oe⟩
  cases oe with
  | some err =>
    rw [loop_step_err w album fuel photos s e prev log err h (by rw [hlp])]
    simp
  | none =>
    rw [loop_step_ok w album fuel photos pg s e prev log h hlp]
    have := loop_log_length_le w album fuel (photos ++ pg) e (e + 1000) (photos.length : Int)
      (log ++ [listPhotosURL album s e])
    simpa using this

/-- After a served page the loop stops exactly when the page is empty. -/
theorem loop_next (w : World) (album : Album) :
    ∀ (fuel : Nat) (photos : List Photo) (s e prev : Int) (log : List String),
      prev ≠ (photos.length : Int) →
      ∀ (i : Nat) (pg : List Photo),
        log.length + i < (ListPhotosLoop w album fuel photos s e prev log).log.length →
        listPhotos w album (argsFrom s e i).1 (argsFrom s e i).2 = (pg, none) →
        (pg = [] →
          (ListPhotosLoop w album fuel photos s e prev log).log.length = log.length + i + 1) ∧
        (pg ≠ [] → i + 1 < fuel →
          log.length + i + 1 < (ListPhotosLoop w album fuel photos s e prev log).log.length) := by
  intro fuel
  induction fuel with
  | zero =>
    intro photos s e prev log h i pg hi _
    simp [ListPhotosLoop, h] at hi
  | succ fuel ih =>
    intro photos s e prev log h i pg hi hpg
    rcases hlp : listPhotos w album s e with ⟨pg0, oe⟩
    cases oe with
    | some err =>
      rw [loop_step_err w album fuel photos s e prev log err h (by rw [hlp])] at hi
      have hi0 : i = 0 := by simp at hi; omega
      subst hi0
      simp [argsFrom, hlp] at hpg
    | none =>
      rw [loop_step_ok w album fuel photos pg0 s e prev log h hlp] at hi ⊢
      by_cases hpg0 : pg0 = []
      · subst hpg0
        rw [loop_done _ _ _ _ _ _ _ _ (by simp)] at hi ⊢
        have hi0 : i = 0 := by simp at hi; omega
        subst hi0
        have : pg = [] := by simpa [argsFrom, hlp] using hpg.symm
        subst this
        simp
      · have hguard := length_append_ne photos pg0 hpg0
        cases i with
        | zero =>
          have hpg1 : pg = pg0 := by simpa [argsFrom, hlp] using hpg.symm
          subst hpg1
          refine ⟨fun h0 => absurd h0 hpg0, fun _ hfuel => ?_⟩
          obtain ⟨f, rfl⟩ : ∃ f, fuel = f + 1 := ⟨fuel - 1, by omega⟩
          have := loop_log_length_pos w album f (photos ++ pg) e (e + 1000)
            (photos.length : Int) (log ++ [listPhotosURL album s e]) hguard
          simp only [List.length_append, List.length_singleton] at this
          omega
        | succ j =>
          have hi1 : (log ++ [listPhotosURL album s e]).length + j <
              (ListPhotosLoop w album fuel (photos ++ pg0) e (e + 1000) (photos.length : Int)
                (log ++ [listPhotosURL album s e])).log.length := by
            simp only [List.length_append, List.length_singleton]
            omega
          obtain ⟨h1, h2⟩ := ih (photos ++ pg0) e (e + 1000) (photos.length : Int)
            (log ++ [listPhotosURL album s e]) hguard j pg hi1 hpg
          simp only [List.length_append, List.length_singleton] at h1 h2
          refine ⟨fun h0 => ?_, fun h0 hfuel => ?_⟩
          · have := h1 h0
            omega
          · have := h2 h0 (by omega)
            omega

/-! ## The positional service: reading the query back -/

/-- Decimal digits are read most significant first. -/
theorem readNat_snoc (l : List Char) (d : Char) :
    readNat (l ++ [d]) = 10 * readNat l + (d.toNat - 48) := by
  simp [readNat, List.foldl_append]

theorem digitChar_spec (k : Nat) (hk : k < 10) :
    (Nat.digitChar k).isDigit = true ∧ (Nat.digitChar k).toNat - 48 = k := by
  interval_cases k <;> decide

theorem toDigitsCore_spec :
    ∀ (fuel n : Nat) (ds : List Char), n < fuel →
      ∃ l, Nat.toDigitsCore 10 fuel n ds = l ++ ds ∧ (∀ c ∈ l, c.isDigit = true) ∧
        readNat l = n := by
  intro fuel
  induction fuel with
  | zero => intro n ds h; omega
  | succ fuel ih =>
    intro n ds h
    obtain ⟨hd1, hd2⟩ := digitChar_spec (n % 10) (Nat.mod_lt _ (by decide))
    by_cases hn : n / 10 = 0
    · refine ⟨[Nat.digitChar (n % 10)], by simp [Nat.toDigitsCore, hn], by simpa using hd1, ?_⟩
      have : readNat [Nat.digitChar (n % 10)] = (Nat.digitChar (n % 10)).toNat - 48 := by
        simp [readNat]
      rw [this, hd2]
      omega
    · obtain ⟨l, hl1, hl2, hl3⟩ := ih (n / 10) (Nat.digitChar (n % 10) :: ds) (by omega)
      refine ⟨l ++ [Nat.digitChar (n % 10)], by simp [Nat.toDigitsCore, hn, hl1], ?_, ?_⟩
      · intro c hc
        rcases List.mem_append.mp hc with h1 | h1
        · exact hl2 c h1
        · simpa [List.mem_singleton.mp h1] using hd1
      · rw [readNat_snoc, hl3, hd2]
        omega

/-- The digits `%d` prints for a natural number read back as that number. -/
theorem toDigits_spec (n : Nat) :
    (∀ c ∈ Nat.toDigits 10 n, c.isDigit = true) ∧ readNat (Nat.toDigits 10 n) = n := by
  obtain ⟨l, hl1, hl2, hl3⟩ := toDigitsCore_spec (n + 1) n [] (Nat.lt_succ_self n)
  have : Nat.toDigits 10 n = l := by simpa [Nat.toDigits] using hl1
  rw [this]
  exact ⟨hl2, hl3⟩

theorem decimal_natCast (n : Nat) : (decimal (n : Int)).data = Nat.toDigits 10 n := rfl

theorem splitNumber_digits (l r : List Char) (c : Char) (hl : ∀ x ∈ l, x.isDigit = true)
    (hc : c.isDigit = false) :
    splitNumber (l.reverse ++ c :: r) = (readNat l, c :: r) := by
  have h1 : ∀ x ∈ l.reverse, x.isDigit = true := fun x hx => hl x (List.mem_reverse.mp hx)
  have h2 : ∀ (a : List Char), (∀ x ∈ a, x.isDigit = true) →
      (a ++ c :: r).takeWhile Char.isDigit = a ∧
        (a ++ c :: r).dropWhile Char.isDigit = c :: r := by
    intro a
    induction a with
    | nil => intro _; simp [List.takeWhile, List.dropWhile, hc]
    | cons x a ih =>
      intro ha
      have hx := ha x (List.mem_cons_self _ _)
      have := ih (fun y hy => ha y (List.mem_cons_of_mem _ hy))
      simp [List.takeWhile, List.dropWhile, hx, this]
  obtain ⟨h3, h4⟩ := h2 l.reverse h1
  simp [splitNumber, h3, h4]

/-- The server reads back the parameters that `listPhotos` wrote. -/
theorem parseQuery_roundtrip (pre : String) (s m : Nat) :
    parseQuery (pre ++ "?start-index=" ++ decimal (s : Int) ++ "&max-results=" ++
      decimal (m : Int)) = some (s, m) := by
  obtain ⟨hs1, hs2⟩ := toDigits_spec s
  obtain ⟨hm1, hm2⟩ := toDigits_spec m
  have hdata : (pre ++ "?start-index=" ++ decimal (s : Int) ++ "&max-results=" ++
      decimal (m : Int)).data.reverse =
      (Nat.toDigits 10 m).reverse ++ '=' :: ("&max-results".data.reverse ++
        ((Nat.toDigits 10 s).reverse ++ '=' :: ("?start-index".data.reverse ++
          pre.data.reverse))) := by
    simp [String.data_append, decimal_natCast]
  have h1 := splitNumber_digits (Nat.toDigits 10 m)
    ("&max-results".data.reverse ++
        ((Nat.toDigits 10 s).reverse ++ '=' :: ("?start-index".data.reverse ++
          pre.data.reverse))) '=' hm1 (by decide)
  have h2 := splitNumber_digits (Nat.toDigits 10 s)
    ("?start-index".data.reverse ++ pre.data.reverse) '=' hs1 (by decide)
  have e1 : "&max-results=".data.reverse = '=' :: "&max-results".data.reverse := by decide
  have e2 : "?start-index=".data.reverse = '=' :: "?start-index".data.reverse := by decide
  have l1 : ("&max-results".data.reverse).length = 12 := by decide
  have l2 : ("?start-index".data.reverse).length = 12 := by decide
  have t1 : ∀ (a r : List Char), a.length = 12 → ('=' :: (a ++ r)).take 13 = '=' :: a ∧
      ('=' :: (a ++ r)).drop 13 = r := by
    intro a r ha
    constructor
    · rw [← List.cons_append, List.take_left' (by simp [ha])]
    · rw [← List.cons_append, List.drop_left' (by simp [ha])]
  simp only [parseQuery, hdata, h1, e1, e2, (t1 _ _ l1).1, (t1 _ _ l1).2, h2, (t1 _ _ l2).1,
    if_true, hs2, hm2]

theorem decodePhotos_pos (l : List Nat) (h : ∀ n ∈ l, 1 ≤ n) :
    decodePhotos l = (l.map photoOf, none) := by
  induction l with
  | nil => rfl
  | cons n l ih =>
    have hn := h n (List.mem_cons_self _ _)
    have hl := ih (fun x hx => h x (List.mem_cons_of_mem _ hx))
    obtain ⟨n1, rfl⟩ : ∃ n1, n = n1 + 1 := ⟨n - 1, by omega⟩
    simp [decodePhotos, hl]

/-- The simulated service is a positional service, for every album. -/
theorem serves_positionalWorld (N : Nat) (album : Album) :
    Serves (positionalWorld N) album (servicePhotos N) := by
  intro s m hs hm
  have hs1 : s = ((s.toNat : Nat) : Int) := by omega
  have hm1 : m = ((m.toNat : Nat) : Int) := by omega
  have hq : parseQuery (listPhotosURL album s m) = some (s.toNat, m.toNat) := by
    rw [listPhotosURL_eq]
    conv_lhs => rw [hs1, hm1]
    exact parseQuery_roundtrip album.FeedURL s.toNat m.toNat
  have hbody : ∀ n ∈ ((List.range' 1 N).drop (s.toNat - 1)).take m.toNat, 1 ≤ n := by
    intro n hn
    have := List.mem_of_mem_drop (List.mem_of_mem_take hn)
    simp [List.mem_range'] at this
    omega
  have hoff : (s - 1).toNat = s.toNat - 1 := by omega
  simp [listPhotos, getFeed, NewRequest, Request.setHeader, ReadAll, positionalWorld, hq,
    decodePhotos_pos _ hbody, servicePage, servicePhotos, List.map_take, List.map_drop, hoff]

/-! ## Runs against a positional service -/

theorem pageArgs_bounds (i : Nat) : 1 ≤ (pageArgs i).1 ∧ 0 ≤ (pageArgs i).2 := by
  cases i with
  | zero => decide
  | succ i =>
    rw [pageArgs_succ]
    constructor <;> simp only <;> omega

/-- The window of the service's photos that the `i`-th request asks for. -/
theorem servicePage_pageArgs (ps : List Photo) (i : Nat) :
    servicePage ps (pageArgs i).1 (pageArgs i).2 =
      (ps.drop (1000 * i - 1)).take (1000 * (i + 1)) := by
  cases i with
  | zero => rfl
  | succ i =>
    rw [pageArgs_succ]
    have h1 : (1000 * ((i : Int) + 1) - 1).toNat = 1000 * (i + 1) - 1 := by omega
    have h2 : (1000 * ((i : Int) + 2)).toNat = 1000 * (i + 1 + 1) := by omega
    simp only [servicePage, h1, h2]

theorem page_of_serves (w : World) (album : Album) (ps : List Photo)
    (h : Serves w album ps) (i : Nat) :
    page w album i = ((ps.drop (1000 * i - 1)).take (1000 * (i + 1)), none) := by
  rw [page, h _ _ (pageArgs_bounds i).1 (pageArgs_bounds i).2, servicePage_pageArgs]

theorem window_ne_nil (ps : List Photo) (i : Nat) (hi : i < servedPages ps.length) :
    (ps.drop (1000 * i - 1)).take (1000 * (i + 1)) ≠ [] := by
  have hN : ps.length ≠ 0 := by
    intro h0
    simp [servedPages, h0] at hi
  have hi1 : i < ps.length / 1000 + 1 := by simpa [servedPages, hN] using hi
  intro hnil
  rcases List.take_eq_nil_iff.mp hnil with h1 | h1
  · omega
  · have := List.drop_eq_nil_iff.mp h1
    omega

theorem window_eq_nil (ps : List Photo) :
    (ps.drop (1000 * servedPages ps.length - 1)).take (1000 * (servedPages ps.length + 1)) =
      [] := by
  by_cases hN : ps.length = 0
  · have : ps = [] := List.length_eq_zero.mp hN
    subst this
    rfl
  · have : ps.drop (1000 * servedPages ps.length - 1) = [] := by
      apply List.drop_eq_nil_iff.mpr
      simp only [servedPages, hN, if_false]
      omega
    rw [this]
    rfl

theorem mem_window (ps : List Photo) (p : Photo) (hp : p ∈ ps) :
    ∃ i, i < servedPages ps.length ∧ p ∈ (ps.drop (1000 * i - 1)).take (1000 * (i + 1)) := by
  obtain ⟨j, hj⟩ := List.mem_iff_getElem?.mp hp
  obtain ⟨hjN, _⟩ := List.getElem?_eq_some.mp hj
  have hN : ps.length ≠ 0 := by omega
  refine ⟨j / 1000, by simp only [servedPages, hN, if_false]; omega, ?_⟩
  apply List.mem_iff_getElem?.mpr
  refine ⟨j - (1000 * (j / 1000) - 1), ?_⟩
  rw [List.getElem?_take_of_lt (by omega), List.getElem?_drop]
  have : 1000 * (j / 1000) - 1 + (j - (1000 * (j / 1000) - 1)) = j := by omega
  rw [this, hj]

/-- A run against a positional service: it ends without error after one request
more than there are non-empty pages, with the served windows in request order. -/
theorem run_of_serves (w : World) (album : Album) (ps : List Photo)
    (h : Serves w album ps) (fuel : Nat) (hfuel : servedPages ps.length + 1 ≤ fuel) :
    ListPhotos w album fuel =
      ⟨some (((List.range (servedPages ps.length + 1)).map
          (fun i => (ps.drop (1000 * i - 1)).take (1000 * (i + 1)))).flatten, none),
        (List.range (servedPages ps.length + 1)).map (pageURL album)⟩ := by
  have hrun := run_until_empty w album (servedPages ps.length) fuel
    (fun i hi => by
      rw [page_of_serves w album ps h i]
      exact ⟨rfl, window_ne_nil ps i hi⟩)
    (by rw [page_of_serves w album ps h, window_eq_nil]) hfuel
  rw [hrun]
  simp only [page_of_serves w album ps h]

theorem servedPages_le (N : Nat) : servedPages N + 1 ≤ N / 1000 + 2 := by
  unfold servedPages
  split <;> omega

/-! ## The claims -/

/-- C1: when the first `k` pages that `ListPhotos` requests are served and
non-empty and the next one is served and empty, the run ends without error
after exactly `k + 1` requests and returns the concatenation of those pages in
request order. -/
theorem C1_concatenates_until_empty_page (w : World) (album : Album) (k fuel : Nat)
    (hne : ∀ i, i < k → (page w album i).2 = none ∧ (page w album i).1 ≠ [])
    (hk : page w album k = ([], none))
    (hfuel : k + 1 ≤ fuel) :
    ListPhotos w album fuel =
        ⟨some (((List.range (k + 1)).map (fun i => (page w album i).1)).flatten, none),
          (List.range (k + 1)).map (pageURL album)⟩ ∧
      (ListPhotos w album fuel).log.length = k + 1 := by
  have hrun := run_until_empty w album k fuel hne hk hfuel
  exact ⟨hrun, by rw [hrun]; simp⟩

/-- C1 at the simulated feed with one record for `(1, 1000)` and none for
`(1000, 2000)`: that record is returned after two requests. -/
theorem C1_concatenates_until_empty_page_witness :
    ((∀ i, i < 1 → (page oneRecordWorld albumA i).2 = none ∧
        (page oneRecordWorld albumA i).1 ≠ []) ∧
      page oneRecordWorld albumA 1 = ([], none) ∧ 1 + 1 ≤ 2) ∧
    (ListPhotos oneRecordWorld albumA 2 =
        ⟨some (((List.range (1 + 1)).map (fun i => (page oneRecordWorld albumA i).1)).flatten,
          none), (List.range (1 + 1)).map (pageURL albumA)⟩ ∧
      (ListPhotos oneRecordWorld albumA 2).log.length = 1 + 1) :=
  ⟨⟨by decide, by decide, by decide⟩,
    C1_concatenates_until_empty_page oneRecordWorld albumA 1 2 (by decide) (by decide)
      (by decide)⟩

/-- C2: whatever the pages contain, the requests a run has issued are, in
order, those with the parameters `(1, 1000)`, `(1000, 2000)`, `(2000, 3000)`,
`(3000, 4000)`, ...: each offset is the previous limit and each limit the
previous limit plus 1000. -/
theorem C2_request_parameters (w : World) (album : Album) (fuel : Nat) :
    (ListPhotos w album fuel).log =
        (List.range (ListPhotos w album fuel).log.length).map
          (fun i => listPhotosURL album (pageArgs i).1 (pageArgs i).2) ∧
      pageArgs 0 = (1, 1000) ∧
      (∀ i, (pageArgs (i + 1)).1 = (pageArgs i).2 ∧
        (pageArgs (i + 1)).2 = (pageArgs i).2 + 1000) ∧
      (∀ i : Nat, pageArgs (i + 1) = (1000 * ((i : Int) + 1), 1000 * ((i : Int) + 2))) ∧
      (pageArgs 1 = (1000, 2000) ∧ pageArgs 2 = (2000, 3000) ∧ pageArgs 3 = (3000, 4000)) := by
  refine ⟨?_, rfl, fun i => ⟨rfl, rfl⟩, pageArgs_succ, by decide⟩
  obtain ⟨n, _, hlog⟩ := loop_log w album fuel [] 1 1000 (-1) []
  have hlog1 : (ListPhotos w album fuel).log = (List.range n).map (pageURL album) := by
    simpa [ListPhotos, urlsFrom_start] using hlog
  rw [hlog1]
  simp [pageURL]

/-- C3: when the first `k` pages are served and non-empty and the next page
fails, in the fetch or in the decoder, the run ends at that page: it returns
that error and no record, and has issued exactly `k + 1` requests. -/
theorem C3_error_discards_everything (w : World) (album : Album) (k fuel : Nat) (err : Error)
    (hne : ∀ i, i < k → (page w album i).2 = none ∧ (page w album i).1 ≠ [])
    (hk : (page w album k).2 = some err)
    (hfuel : k + 1 ≤ fuel) :
    ListPhotos w album fuel =
      ⟨some ([], some err), (List.range (k + 1)).map (pageURL album)⟩ := by
  obtain ⟨f, rfl⟩ : ∃ f, fuel = (f + 1) + k := ⟨fuel - (k + 1), by omega⟩
  obtain ⟨prev1, h1, h2⟩ := run_reaches w album k (f + 1) hne
  rw [h2, loop_step_err w album f _ _ _ _ _ err h1 hk]
  simp [List.range_succ, pageURL]

/-- C3 at a feed whose first page has 500 records and whose second page breaks
off in the decoder after two entries: the run returns the decode error and no
record, after two requests. -/
theorem C3_error_discards_everything_witness :
    ((∀ i, i < 1 → (page brokenSecondPageWorld albumA i).2 = none ∧
        (page brokenSecondPageWorld albumA i).1 ≠ []) ∧
      (page brokenSecondPageWorld albumA 0).1.length = 500 ∧
      page brokenSecondPageWorld albumA 1 =
        ([photoOf 2, photoOf 3], some ⟨"XML syntax error"⟩) ∧ 1 + 1 ≤ 2) ∧
    ListPhotos brokenSecondPageWorld albumA 2 =
      ⟨some ([], some ⟨"XML syntax error"⟩), (List.range (1 + 1)).map (pageURL albumA)⟩ :=
  ⟨⟨by decide, by decide, by decide, by decide⟩,
    C3_error_discards_everything brokenSecondPageWorld albumA 1 2 ⟨"XML syntax error"⟩
      (by decide) (by decide) (by decide)⟩

/-- C4 at a positional service with 1000 photos and an album that declares
1200: `ListPhotos` returns 1001 records, the photo at position 1000 twice. -/
theorem C4_boundary_photo_is_returned_twice :
    (ListPhotos (positionalWorld 1000) albumB 3).outcome =
        some (servicePhotos 1000 ++ [photoOf 1000], none) ∧
      (servicePhotos 1000).length = 1000 ∧
      (servicePhotos 1000 ++ [photoOf 1000]).length = 1001 ∧
      (1000 : Int) < albumB.NumPhotos := by
  have hlen : (servicePhotos 1000).length = 1000 := by simp [servicePhotos]
  have hpages : servedPages (servicePhotos 1000).length = 2 := by rw [hlen]; decide
  refine ⟨?_, hlen, by simp [hlen], by decide⟩
  rw [run_of_serves _ albumB (servicePhotos 1000) (serves_positionalWorld 1000 albumB) 3
    (by rw [hpages])]
  rw [hpages]
  have h0 : (servicePhotos 1000).take 1000 = servicePhotos 1000 :=
    List.take_of_length_le (by rw [hlen])
  have h1 : ((servicePhotos 1000).drop 999).take 2000 = [photoOf 1000] := by decide
  have h2 : (servicePhotos 1000).drop 1999 = [] :=
    List.drop_eq_nil_iff.mpr (by rw [hlen]; decide)
  simp [List.range_succ, h0, h1, h2]

/-- C5: against a positional service holding the photos `ps`, `ListPhotos`
ends without error, and every photo of `ps` occurs in what it returns. -/
theorem C5_complete_against_positional_service (w : World) (album : Album)
    (ps : List Photo) (h : Serves w album ps) :
    ∃ result : List Photo,
      (∀ fuel, ps.length / 1000 + 2 ≤ fuel →
        (ListPhotos w album fuel).outcome = some (result, none)) ∧
      (∀ p, p ∈ ps → p ∈ result) := by
  refine ⟨((List.range (servedPages ps.length + 1)).map
      (fun i => (ps.drop (1000 * i - 1)).take (1000 * (i + 1)))).flatten, ?_, ?_⟩
  · intro fuel hfuel
    rw [run_of_serves w album ps h fuel (le_trans (servedPages_le ps.length) hfuel)]
  · intro p hp
    obtain ⟨i, hi, hmem⟩ := mem_window ps p hp
    apply List.mem_flatten.mpr
    exact ⟨_, List.mem_map.mpr ⟨i, List.mem_range.mpr (by omega), rfl⟩, hmem⟩

/-- C5 at the simulated positional service with 2500 photos. -/
theorem C5_complete_against_positional_service_witness :
    Serves (positionalWorld 2500) albumB (servicePhotos 2500) ∧
    ∃ result : List Photo,
      (∀ fuel, (servicePhotos 2500).length / 1000 + 2 ≤ fuel →
        (ListPhotos (positionalWorld 2500) albumB fuel).outcome = some (result, none)) ∧
      (∀ p, p ∈ servicePhotos 2500 → p ∈ result) :=
  ⟨serves_positionalWorld 2500 albumB,
    C5_complete_against_positional_service (positionalWorld 2500) albumB (servicePhotos 2500)
      (serves_positionalWorld 2500 albumB)⟩

/-- C6 at a root feed that breaks off after one album entry: `ListAlbums`
returns the decode error together with the album decoded before it. -/
theorem C6_ListAlbums_returns_partial_list :
    ListAlbums brokenRootWorld = ([albumOf 1], some ⟨"XML syntax error"⟩) := by
  decide

/-- C7: two albums with the same ID, whatever their names and declared photo
counts, give the same run: the same requests in the same order and the same
result, records or error. -/
theorem C7_declared_count_is_ignored (w : World) (a b : Album) (fuel : Nat)
    (h : a.ID = b.ID) :
    ListPhotos w a fuel = ListPhotos w b fuel :=
  loop_of_ID_eq w a b h fuel [] 1 1000 (-1) []

/-- C7 at two albums with ID `A`, declared counts 7 and 0 and different names. -/
theorem C7_declared_count_is_ignored_witness :
    (albumA.ID = albumA2.ID ∧ albumA.NumPhotos ≠ albumA2.NumPhotos ∧
      albumA.Name ≠ albumA2.Name) ∧
    ListPhotos oneRecordWorld albumA 2 = ListPhotos oneRecordWorld albumA2 2 :=
  ⟨⟨by decide, by decide, by decide⟩,
    C7_declared_count_is_ignored oneRecordWorld albumA albumA2 2 (by decide)⟩

/-- C8, as the code has it: in every run, after a served page with no record no
further request is issued, and after a served page with at least one record,
full or not, the next request is issued (the iteration bound permitting). -/
theorem C8_stops_at_first_empty_page (w : World) (album : Album) (fuel i : Nat)
    (pg : List Photo)
    (hi : i < (ListPhotos w album fuel).log.length)
    (hp : page w album i = (pg, none)) :
    (pg = [] → (ListPhotos w album fuel).log.length = i + 1) ∧
      (pg ≠ [] → i + 1 < fuel → i + 1 < (ListPhotos w album fuel).log.length) := by
  have h := loop_next w album fuel [] 1 1000 (-1) [] (by simp) i pg
    (by simpa [ListPhotos] using hi) (by simpa [page, pageArgs_eq_argsFrom] using hp)
  simpa [ListPhotos] using h

/-- C8 at the feed with one record on the first page: that page is short and
not empty, and the second request is issued. -/
theorem C8_stops_at_first_empty_page_witness :
    (0 < (ListPhotos oneRecordWorld albumA 5).log.length ∧
      page oneRecordWorld albumA 0 = ([photoOf 1], none)) ∧
    ([photoOf 1] = [] → (ListPhotos oneRecordWorld albumA 5).log.length = 0 + 1) ∧
      ([photoOf 1] ≠ [] → 0 + 1 < 5 →
        0 + 1 < (ListPhotos oneRecordWorld albumA 5).log.length) :=
  ⟨⟨by decide, by decide⟩,
    C8_stops_at_first_empty_page oneRecordWorld albumA 5 0 [photoOf 1] (by decide)
      (by decide)⟩

/-- C8 as stated fails: the first page of this run is served with one record,
fewer than its max-results of 1000, and the request `(1000, 2000)` is issued
all the same. -/
theorem C8_short_page_does_not_stop :
    page oneRecordWorld albumA 0 = ([photoOf 1], none) ∧
      (pageArgs 0).2 = 1000 ∧
      (([photoOf 1] : List Photo).length : Int) < (pageArgs 0).2 ∧
      (ListPhotos oneRecordWorld albumA 2).log =
        [listPhotosURL albumA 1 1000, listPhotosURL albumA 1000 2000] :=
  ⟨by decide, by decide, by decide, by decide⟩

/-- C9: the endpoint that `listPhotos` requests for album `a` and integers `s`
and `m` is `a.FeedURL()` followed by `?start-index=`, `s` in decimal,
`&max-results=` and `m` in decimal; it is the URL of the GET request handed to
the HTTP client, whose one header is the version header in canonical form;
`a.FeedURL()` is the fixed address followed by `a.ID`, the same for every name
and declared count. -/
theorem C9_page_endpoint (w : World) (a : Album) (s m : Int) :
    listPhotosURL a s m =
        a.FeedURL ++ "?start-index=" ++ decimal s ++ "&max-results=" ++ decimal m ∧
      listPhotos w a s m =
        (match w.badURL
            (a.FeedURL ++ "?start-index=" ++ decimal s ++ "&max-results=" ++ decimal m) with
          | some e => ([], some e)
          | none =>
            match w.Do ⟨"GET",
                a.FeedURL ++ "?start-index=" ++ decimal s ++ "&max-results=" ++ decimal m,
                [("Gdata-Version", "2")]⟩ with
            | .error e => ([], some e)
            | .ok res =>
              match res.BodyErr with
              | some e => ([], some e)
              | none => w.UnmarshalPhotos res.Body) ∧
      a.FeedURL = "https://picasaweb.google.com/data/feed/api/user/default/albumid/" ++ a.ID ∧
      (∀ (id name1 name2 : String) (n1 n2 : Int),
        (Album.mk id name1 n1).FeedURL = (Album.mk id name2 n2).FeedURL) ∧
      decimal 1 = "1" ∧ decimal 1000 = "1000" ∧ decimal (-25) = "-25" := by
  have hurl := listPhotosURL_eq a s m
  have hkey : canonicalKey "GData-Version" = "Gdata-Version" := by decide
  refine ⟨hurl, ?_, rfl, fun _ _ _ _ _ => rfl, by decide, by decide, by decide⟩
  simp only [listPhotos, hurl, getFeed, NewRequest, Request.setHeader, ReadAll, hkey]
  cases w.badURL
      (a.FeedURL ++ "?start-index=" ++ decimal s ++ "&max-results=" ++ decimal m) with
  | some e => rfl
  | none =>
    simp only [List.filter_nil]
    cases w.Do ⟨"GET",
        a.FeedURL ++ "?start-index=" ++ decimal s ++ "&max-results=" ++ decimal m,
        [("Gdata-Version", "2")]⟩ with
    | error e => rfl
    | ok res =>
      rcases res with ⟨body, berr⟩
      cases berr <;> rfl

/-- C10: when the first page, `(1, 1000)`, is served and has no record, the run
returns the empty sequence and no error after exactly one request, whatever the
album declares. -/
theorem C10_empty_first_page (w : World) (album : Album) (fuel : Nat)
    (h : listPhotos w album 1 1000 = ([], none)) (hfuel : 1 ≤ fuel) :
    ListPhotos w album fuel = ⟨some ([], none), [listPhotosURL album 1 1000]⟩ ∧
      (ListPhotos w album fuel).log.length = 1 := by
  obtain ⟨f, rfl⟩ : ∃ f, fuel = f + 1 := ⟨fuel - 1, by omega⟩
  have hrun : ListPhotos w album (f + 1) =
      ⟨some ([], none), [listPhotosURL album 1 1000]⟩ := by
    rw [ListPhotos, loop_step_ok w album f [] [] 1 1000 (-1) [] (by simp) h,
      loop_done _ _ _ _ _ _ _ _ (by simp)]
    simp
  exact ⟨hrun, by rw [hrun]; rfl⟩

/-- C10 at the empty feed and an album that declares 7 photos. -/
theorem C10_empty_first_page_witness :
    (listPhotos emptyWorld albumA 1 1000 = ([], none) ∧ 1 ≤ 1 ∧ albumA.NumPhotos = 7) ∧
    (ListPhotos emptyWorld albumA 1 = ⟨some ([], none), [listPhotosURL albumA 1 1000]⟩ ∧
      (ListPhotos emptyWorld albumA 1).log.length = 1) :=
  ⟨⟨by decide, by decide, by decide⟩,
    C10_empty_first_page emptyWorld albumA 1 (by decide) (by decide)⟩

end Googlephoto
